import Mathlib

/-!
Verification of the phase-structured conversation agent
(`app/agents/nodes/scoping_node.py`, `app/agents/nodes/schema_node.py`,
`app/services/schema_service.py`).

The LLM ("oracle") and the retrieval service are external: every handler that
invokes them takes the oracle's reply text (or, for the answer-processing
oracle, the outcome of `json.loads` on its reply) as an explicit parameter.
Python operations that can raise are modelled with `Except String`.
-/

/-- JSON-like runtime values (results of `json.loads`, entries of
`user_responses`, confidence/reasoning payloads). Numbers are modelled as
rationals; the program only stores and compares the constants 0.6/0.7/0.8/0.9. -/
inductive JsonVal where
  | str (s : String)
  | num (q : Rat)
  | bool (b : Bool)
  | null
  | arr (xs : List JsonVal)
  | obj (kvs : List (String × JsonVal))

/-- Ordered-dictionary lookup (Python `dict` preserves insertion order). -/
def alGet {α : Type} : List (String × α) → String → Option α
  | [], _ => none
  | (k2, v) :: t, k => if k2 = k then some v else alGet t k

/-- Ordered-dictionary assignment `d[k] = v`: overwrite in place, else append. -/
def alSet {α : Type} : List (String × α) → String → α → List (String × α)
  | [], k, v => [(k, v)]
  | (k2, v2) :: t, k, v => if k2 = k then (k2, v) :: t else (k2, v2) :: alSet t k v

theorem alGet_alSet {α : Type} (m : List (String × α)) (k k2 : String) (v : α) :
    alGet (alSet m k v) k2 = if k2 = k then some v else alGet m k2 := by
  induction m with
  | nil =>
      by_cases h : k2 = k
      · subst h; simp [alSet, alGet]
      · have h2 : ¬ k = k2 := fun hh => h hh.symm
        simp [alSet, alGet, h, h2]
  | cons hd t ih =>
      obtain ⟨k3, v3⟩ := hd
      by_cases h3 : k3 = k
      · subst h3
        by_cases h : k2 = k3
        · subst h; simp [alSet, alGet]
        · have h2 : ¬ k3 = k2 := fun hh => h hh.symm
          simp [alSet, alGet, h, h2]
      · by_cases h2 : k3 = k2
        · subst h2
          simp [alSet, alGet, h3]
        · simp [alSet, alGet, h3, h2, ih]

/-- Python `\s` (ASCII): space, tab, newline, carriage return, form feed,
vertical tab. -/
def isPySpace (c : Char) : Bool :=
  c = ' ' || c = '\t' || c = '\n' || c = '\r' || c = '\x0b' || c = '\x0c'

/-- Python regex `\w`: alphanumeric or underscore. -/
def isWordChar (c : Char) : Bool :=
  c.isAlphanum || c = '_'

/-- Python `str.strip()` over a character list. -/
def stripList (l : List Char) : List Char :=
  ((l.dropWhile isPySpace).reverse.dropWhile isPySpace).reverse

/-- Substring test (`needle in hay` on Python strings). -/
def containsSub (needle : List Char) : List Char → Bool
  | [] => needle.isEmpty
  | c :: t => needle.isPrefixOf (c :: t) || containsSub needle t

/-- Case-insensitive literal prefix match; returns the remainder on success. -/
def ciPrefixDrop : List Char → List Char → Option (List Char)
  | [], l => some l
  | _ :: _, [] => none
  | p :: ps, c :: cs => if c.toLower = p then ciPrefixDrop ps cs else none

/-- Greedy `(.+)` : the maximal nonempty run of non-newline characters. -/
def dotPlus (l : List Char) : Option (List Char) :=
  match l.takeWhile (fun c => ¬ c = '\n') with
  | [] => none
  | xs => some xs

/-- Backtracking match of the regex tail `\s*(.+)`: consume whitespace
greedily, on failure let `(.+)` start at the current character. Returns the
text captured by `(.+)`. -/
def matchScopeTail : List Char → Option (List Char)
  | [] => none
  | c :: cs =>
      if isPySpace c then
        match matchScopeTail cs with
        | some cap => some cap
        | none => dotPlus (c :: cs)
      else dotPlus (c :: cs)

/-- `re.search(r'SCOPE_CONFIRMED:\s*(.+)', s, re.IGNORECASE)` scan: try every
start position left to right; the pattern begins with the literal marker. -/
def searchScopeMarker : List Char → Option (List Char)
  | [] => none
  | c :: cs =>
      match ciPrefixDrop "scope_confirmed:".data (c :: cs) with
      | some rest =>
          match matchScopeTail rest with
          | some cap => some cap
          | none => searchScopeMarker cs
      | none => searchScopeMarker cs

/-- The confirmed-scope capture of `_parse_scoping_response`:
`re.search(r'SCOPE_CONFIRMED:\s*(.+)', response, re.IGNORECASE)` followed by
`group(1).strip()`. -/
def findScopeConfirmed (s : String) : Option String :=
  (searchScopeMarker s.data).map (fun cap => String.mk (stripList cap))

/-- One token of a stage pattern: a literal character or the regex wildcard
`.` (any character except newline). -/
inductive PatTok where
  | lit (c : Char)
  | wild

def tokMatches : PatTok → Char → Bool
  | .lit c2, c => c = c2
  | .wild, c => ¬ c = '\n'

/-- Match a token list against a prefix of the input, returning the remainder. -/
def matchToks : List PatTok → List Char → Option (List Char)
  | [], rest => some rest
  | _ :: _, [] => none
  | t :: ts, c :: cs => if tokMatches t c then matchToks ts cs else none

/-- One alternative of a `\b(...|...)\b` pattern matches at this position:
the tokens match and the character after the match (if any) is a non-word
character (all alternatives end in a word character, so the trailing `\b`
reduces to exactly this test). -/
def altAt (alt : List PatTok) (l : List Char) : Bool :=
  match matchToks alt l with
  | none => false
  | some [] => true
  | some (c :: _) => ¬ isWordChar c

/-- `re.search` existence test for `\b(alt1|alt2|...)\b` where every
alternative begins and ends with a word character: scan positions left to
right, tracking whether the previous character was a word character (the
leading `\b` requires it not to be). -/
def scanWordAlts (alts : List (List PatTok)) : Bool → List Char → Bool
  | _, [] => false
  | prevNonWord, c :: cs =>
      (prevNonWord && alts.any (fun alt => altAt alt (c :: cs))) ||
        scanWordAlts alts (¬ isWordChar c) cs

def litToks (s : String) : List PatTok := s.data.map PatTok.lit

/-- `poc|proof.of.concept|pilot` — the dots are regex wildcards. -/
def pocAlts : List (List PatTok) :=
  [litToks "poc",
   litToks "proof" ++ [PatTok.wild] ++ litToks "of" ++ [PatTok.wild] ++ litToks "concept",
   litToks "pilot"]

/-- Modelled from the spec: the `ProjectStage` enumeration of the missing
`app/models/types.py`, one member per stage-indicating keyword pattern of
§4.2 (idea; design; development; testing; proof-of-concept; existing). -/
inductive ProjectStage where
  | idea | design | development | testing | poc | existing
deriving DecidableEq

/-- The `stage_patterns` dictionary of `_parse_scoping_response`, in its
declared iteration order. -/
def stagePatterns : List (ProjectStage × List (List PatTok)) :=
  [(.idea, [litToks "idea", litToks "concept", litToks "brainstorm"]),
   (.design, [litToks "design", litToks "mockup", litToks "wireframe", litToks "prototype"]),
   (.development, [litToks "develop", litToks "code", litToks "implement", litToks "build"]),
   (.testing, [litToks "test", litToks "qa", litToks "debug"]),
   (.poc, pocAlts),
   (.existing, [litToks "existing", litToks "already", litToks "current"])]

/-- The stage-extraction loop of `_parse_scoping_response`: first pattern (in
dictionary order) that `re.search`-matches `response.lower()` wins. -/
def lowerData (s : String) : List Char :=
  s.data.map Char.toLower

def findStage (response : String) : Option ProjectStage :=
  (stagePatterns.find? (fun p => scanWordAlts p.2 true (lowerData response))).map Prod.fst

/-- Non-backtracking match of `\s*(\w+)\s*-\s*(\w+)` (whitespace, word
characters and `-` are pairwise disjoint, so greediness is deterministic). -/
def matchRecTail (rest : List Char) : Option (List Char × List Char) :=
  let r1 := rest.dropWhile isPySpace
  let w1 := r1.takeWhile isWordChar
  if w1.isEmpty then none
  else
    match (r1.drop w1.length).dropWhile isPySpace with
    | '-' :: r3 =>
        let w2 := (r3.dropWhile isPySpace).takeWhile isWordChar
        if w2.isEmpty then none else some (w1, w2)
    | _ => none

/-- Case-sensitive literal prefix match; returns the remainder on success. -/
def csPrefixDrop : List Char → List Char → Option (List Char)
  | [], l => some l
  | _ :: _, [] => none
  | p :: ps, c :: cs => if c = p then csPrefixDrop ps cs else none

/-- `re.search(r'RECOMMENDATION:\s*(\w+)\s*-\s*(\w+)', s)` scan of
`_handle_schema_selection`. -/
def searchRecommendation : List Char → Option (List Char × List Char)
  | [] => none
  | c :: cs =>
      match csPrefixDrop "RECOMMENDATION:".data (c :: cs) with
      | some rest =>
          match matchRecTail rest with
          | some caps => some caps
          | none => searchRecommendation cs
      | none => searchRecommendation cs

def findRecommendation (s : String) : Option (String × String) :=
  (searchRecommendation s.data).map (fun p => (String.mk p.1, String.mk p.2))

/-- The question heuristic `_is_question_response`: any of the indicator
substrings occurs anywhere in the lowercased text. -/
def isQuestionResponse (text : String) : Bool :=
  let tl := lowerData text
  ["?", "what", "how", "when", "where", "why", "which", "can you", "could you"].any
    (fun ind => containsSub ind.data tl)

/-- Modelled from the spec: the `Platform` enumeration of the missing
`app/models/types.py`; members per the platform menu of
`_handle_schema_selection` and the default schemas. -/
inductive Platform where
  | topcoder | kaggle | herox | zindi | internal
deriving DecidableEq

def Platform.value : Platform → String
  | .topcoder => "Topcoder"
  | .kaggle => "Kaggle"
  | .herox => "HeroX"
  | .zindi => "Zindi"
  | .internal => "Internal"

/-- `Platform(s)`: enum lookup by value; `none` models the `ValueError`. -/
def Platform.fromString (s : String) : Option Platform :=
  [Platform.topcoder, .kaggle, .herox, .zindi, .internal].find?
    (fun p => p.value = s)

/-- Modelled from the spec: the `ChallengeType` enumeration of the missing
`app/models/types.py`; members per the challenge-type menu of
`_handle_schema_selection` and the default schemas. -/
inductive ChallengeType where
  | design | development | dataScience | first2Finish | bugHunt
deriving DecidableEq

def ChallengeType.value : ChallengeType → String
  | .design => "Design"
  | .development => "Development"
  | .dataScience => "Data Science"
  | .first2Finish => "First2Finish"
  | .bugHunt => "Bug Hunt"

/-- `ChallengeType(s)`: enum lookup by value; `none` models the `ValueError`. -/
def ChallengeType.fromString (s : String) : Option ChallengeType :=
  [ChallengeType.design, .development, .dataScience, .first2Finish, .bugHunt].find?
    (fun c => c.value = s)

/-- A schema field definition (`FieldDefinition` of the missing
`app/models/types.py`, fields as used by the node code and the schema files). -/
structure FieldDefinition where
  required : Bool
  field_type : String
  description : Option String := none
deriving DecidableEq

/-- A challenge schema (`ChallengeSchema`): ordered field dictionary. -/
structure ChallengeSchema where
  platform : Platform
  challenge_type : ChallengeType
  fields : List (String × FieldDefinition)
deriving DecidableEq

/-- One reasoning-ledger record (`ReasoningTrace` of the missing
`app/models/types.py`; confidence and reasoning hold whatever the processed
oracle record supplied). -/
structure ReasoningTrace where
  field : String
  source : String
  confidence : JsonVal
  reasoning : JsonVal

/-- Modelled from the spec: `ConversationState` of the missing
`app/models/types.py`, fields per §3 of the specification and their use in
the node code; `platform`/`challenge_type` are optional enumerations. -/
structure ConversationState where
  user_input : String := ""
  scope_confirmed : Bool := false
  platform : Option Platform := none
  challenge_type : Option ChallengeType := none
  project_stage : Option ProjectStage := none
  schema : Option ChallengeSchema := none
  required_fields : List String := []
  completed_fields : List String := []
  current_field : Option String := none
  user_responses : List (String × JsonVal) := []
  reasoning_traces : List ReasoningTrace := []
  is_final : Bool := false

/-- What a node returns: the updated conversation state, the reply shown to
the user, and the next node to route to. -/
structure NodeResult where
  conversation_state : ConversationState
  response : String
  next_node : String

/-- `SchemaService.get_required_fields`: names of required fields, in
schema-declared order. -/
def getRequiredFields (schema : ChallengeSchema) : List String :=
  (schema.fields.filter (fun kv => kv.2.required)).map Prod.fst

/-- `SchemaService.get_field_definition`. -/
def getFieldDefinition (schema : ChallengeSchema) (field_name : String) :
    Option FieldDefinition :=
  alGet schema.fields field_name

/-- `SchemaService.get_schema`: keyed lookup by `"platform_challengetype"`
over the loaded schema dictionary. -/
def getSchema (schemas : List (String × ChallengeSchema)) (p : Platform)
    (ct : ChallengeType) : Option ChallengeSchema :=
  alGet schemas (p.value ++ "_" ++ ct.value)

/-- The three default schemas written by `_create_default_schemas`. -/
def topcoderDesignSchema : ChallengeSchema :=
  { platform := .topcoder, challenge_type := .design,
    fields :=
      [("title", ⟨true, "text", some "Challenge title"⟩),
       ("overview", ⟨true, "text", some "Detailed overview"⟩),
       ("objectives", ⟨true, "array", some "List of objectives"⟩),
       ("tech_stack", ⟨false, "array", some "Technologies to use"⟩),
       ("timeline", ⟨true, "object", some "Timeline details"⟩),
       ("prize_structure", ⟨true, "object", some "Prize breakdown"⟩),
       ("judging_criteria", ⟨true, "array", some "Judging criteria"⟩)] }

def topcoderDevelopmentSchema : ChallengeSchema :=
  { platform := .topcoder, challenge_type := .development,
    fields :=
      [("title", ⟨true, "text", none⟩),
       ("overview", ⟨true, "text", none⟩),
       ("objectives", ⟨true, "array", none⟩),
       ("tech_stack", ⟨true, "array", none⟩),
       ("timeline", ⟨true, "object", none⟩),
       ("prize_structure", ⟨true, "object", none⟩),
       ("judging_criteria", ⟨true, "array", none⟩),
       ("submission_requirements", ⟨true, "array", none⟩),
       ("testing_requirements", ⟨false, "text", none⟩)] }

def kaggleDataScienceSchema : ChallengeSchema :=
  { platform := .kaggle, challenge_type := .dataScience,
    fields :=
      [("title", ⟨true, "text", none⟩),
       ("overview", ⟨true, "text", none⟩),
       ("objectives", ⟨true, "array", none⟩),
       ("dataset_description", ⟨true, "text", none⟩),
       ("evaluation_metric", ⟨true, "text", none⟩),
       ("timeline", ⟨true, "object", none⟩),
       ("prize_structure", ⟨true, "object", none⟩),
       ("submission_format", ⟨true, "text", none⟩)] }

/-- The schema dictionary `SchemaService._schemas` after loading the default
schema files (`_load_schemas` keys each schema by
`platform.value + "_" + challenge_type.value`). -/
def defaultCatalog : List (String × ChallengeSchema) :=
  [topcoderDesignSchema, topcoderDevelopmentSchema, kaggleDataScienceSchema].map
    (fun s => (s.platform.value ++ "_" ++ s.challenge_type.value, s))

/-- The parse result of `_parse_scoping_response`: the dictionary is built
with defaults `reasoning = ""`, `confidence = 0.7`, then the scope-confirmed
branch overrides them; the stage loop runs regardless. -/
structure ScopingParse where
  scope : Option String
  stage : Option ProjectStage
  reasoning : String
  confidence : Rat

def parseScopingResponse (response : String) : ScopingParse :=
  match findScopeConfirmed response with
  | some desc =>
      { scope := some desc, stage := findStage response,
        reasoning := "User confirmed scope: " ++ desc, confidence := 9/10 }
  | none =>
      { scope := none, stage := findStage response,
        reasoning := "", confidence := 7/10 }

/-- `_handle_scoping_dialogue`: the oracle's free-text reply is a parameter
(prompt construction and the retrieval grounding feed only the oracle). -/
def handleScopingDialogue (oracleReply : String) (state : ConversationState) :
    NodeResult :=
  let parsed := parseScopingResponse oracleReply
  let st1 :=
    match parsed.scope with
    | some desc =>
        { state with scope_confirmed := true,
                     user_responses :=
                       alSet state.user_responses "confirmed_scope" (.str desc) }
    | none => state
  let st2 :=
    match parsed.stage with
    | some stg => { st1 with project_stage := some stg }
    | none => st1
  let st3 :=
    if parsed.reasoning = "" then st2
    else
      { st2 with reasoning_traces := st2.reasoning_traces ++
          [⟨"scoping", "scoping_dialogue", .num parsed.confidence,
            .str parsed.reasoning⟩] }
  { conversation_state := st3, response := oracleReply,
    next_node := if st3.scope_confirmed then "schema_selection" else "scoping" }

/-- `_handle_schema_selection`: parse the recommendation line; on a valid
platform and challenge type store both and route to schema loading, otherwise
(no match, or `ValueError` from either enum constructor) return the state
unchanged and surface the raw oracle text. -/
def handleSchemaSelection (oracleReply : String) (state : ConversationState) :
    NodeResult :=
  match findRecommendation oracleReply with
  | some (w1, w2) =>
      match Platform.fromString w1, ChallengeType.fromString w2 with
      | some p, some ct =>
          { conversation_state :=
              { state with platform := some p, challenge_type := some ct },
            response := oracleReply, next_node := "schema_loading" }
      | _, _ =>
          { conversation_state := state, response := oracleReply,
            next_node := "schema_selection" }
  | none =>
      { conversation_state := state, response := oracleReply,
        next_node := "schema_selection" }

/-- `ScopingNode.__call__`: dispatch on `scope_confirmed`. -/
def scopingNodeCall (oracleReply : String) (state : ConversationState) :
    NodeResult :=
  if state.scope_confirmed then handleSchemaSelection oracleReply state
  else handleScopingDialogue oracleReply state

/-- Python truthiness of an optional string (`if next_field:` and friends):
`None` and the empty string are falsy. -/
def pyTruthy : Option String → Bool
  | none => false
  | some s => decide (¬ s = "")

/-- `_get_next_field` over the conversation state: first required field not
yet completed, then first schema field not yet completed, else none. -/
def getNextField (state : ConversationState) : Option String :=
  match state.required_fields.find?
      (fun f => decide (f ∉ state.completed_fields)) with
  | some f => some f
  | none =>
      match state.schema with
      | some sch =>
          (sch.fields.map Prod.fst).find?
            (fun f => decide (f ∉ state.completed_fields))
      | none => none

/-- `_create_schema_intro_message` (the Python triple-quoted f-string,
whitespace included). -/
def createSchemaIntroMessage (schema : ChallengeSchema) : String :=
  let field_count := schema.fields.length
  let required_count := (schema.fields.filter (fun kv => kv.2.required)).length
  "\n        Perfect! I\x27ve loaded the " ++ schema.platform.value ++ " " ++
    schema.challenge_type.value ++ " challenge template.\n        \n        I\x27ll need to collect information for " ++
    toString field_count ++ " fields (" ++ toString required_count ++
    " required, " ++ toString (field_count - required_count) ++
    " optional).\n        \n        Let me start by asking about the most important details for your challenge.\n        "

/-- `_load_schema`: platform/challenge type must both be set, the pair must
resolve in the catalog; on success store the schema snapshot, the required
fields, and (when one exists) the first field from the next-field algorithm. -/
def loadSchema (schemas : List (String × ChallengeSchema))
    (state : ConversationState) : NodeResult :=
  match state.platform, state.challenge_type with
  | some p, some ct =>
      match getSchema schemas p ct with
      | none =>
          { conversation_state := state,
            response := "I don\x27t have a schema for " ++ p.value ++ " " ++
              ct.value ++
              " challenges. Let me help you with a different combination.",
            next_node := "scoping" }
      | some schema =>
          let st1 := { state with schema := some schema,
                                  required_fields := getRequiredFields schema }
          let st2 :=
            if pyTruthy (getNextField st1) then
              { st1 with current_field := getNextField st1 }
            else st1
          { conversation_state := st2,
            response := createSchemaIntroMessage schema,
            next_node := "field_questions" }
  | _, _ =>
      { conversation_state := state,
        response := "I need to know the platform and challenge type first. Let me help you select those.",
        next_node := "scoping" }

/-- `_process_answer_with_llm` after the oracle call: `parsedReply` is the
result of `json.loads` on the oracle's reply (`none` models the parse
exception, which the bare `except` turns into the verbatim fallback record). -/
def processAnswerWithLLM (parsedReply : Option JsonVal) (user_answer : String) :
    JsonVal :=
  match parsedReply with
  | some v => v
  | none =>
      .obj [("value", .str user_answer), ("confidence", .num (6/10)),
            ("reasoning", .str "Direct user input")]

/-- Python `d[k]` on a decoded JSON value: `KeyError` for a missing key,
`TypeError` when the value is not a dictionary. -/
def getItem (v : JsonVal) (k : String) : Except String JsonVal :=
  match v with
  | .obj kvs =>
      match alGet kvs k with
      | some x => .ok x
      | none => .error ("KeyError: " ++ k)
  | _ => .error "TypeError: value is not a dict"

/-- Python `d.get(k, default)` on a decoded JSON dictionary. -/
def getWithDefault (v : JsonVal) (k : String) (dflt : JsonVal) : JsonVal :=
  match v with
  | .obj kvs => (alGet kvs k).getD dflt
  | _ => dflt

/-- `_process_field_answer` (which first runs `_process_answer_with_llm`;
that helper dereferences the field definition for its prompt, so a missing
definition raises before any oracle call). -/
def processFieldAnswer (sch : ChallengeSchema) (state : ConversationState)
    (field_name user_answer : String) (parsedReply : Option JsonVal) :
    Except String NodeResult :=
  match getFieldDefinition sch field_name with
  | none => .error "AttributeError: NoneType has no attribute field_type"
  | some _ =>
      let processed := processAnswerWithLLM parsedReply user_answer
      match getItem processed "value" with
      | .error e => .error e
      | .ok v =>
          let st1 := { state with
            user_responses := alSet state.user_responses field_name v,
            completed_fields := state.completed_fields ++ [field_name] }
          let trace : ReasoningTrace :=
            { field := field_name,
              source := "user_input: " ++ user_answer,
              confidence := getWithDefault processed "confidence" (.num (8/10)),
              reasoning := getWithDefault processed "reasoning"
                (.str ("User provided: " ++ user_answer)) }
          let st2 := { st1 with
            reasoning_traces := st1.reasoning_traces ++ [trace] }
          let next := getNextField st2
          let st3 := { st2 with current_field := next }
          .ok { conversation_state := st3,
                response :=
                  if pyTruthy next then
                    "Great! I\x27ve recorded your answer for " ++ field_name ++
                      ". Let me ask about the next field."
                  else
                    "Perfect! I have all the information I need. Let me generate your challenge specification.",
                next_node :=
                  if pyTruthy next then "field_questions" else "spec_generation" }

/-- `_move_to_next_field`: recompute the next field (always assigning it,
even when none remains) and route accordingly; nothing else changes. -/
def moveToNextField (state : ConversationState) : NodeResult :=
  let next := getNextField state
  let st := { state with current_field := next }
  if pyTruthy next then
    { conversation_state := st,
      response := "Let me ask about the " ++ next.getD "" ++ " field instead.",
      next_node := "field_questions" }
  else
    { conversation_state := st,
      response := "I have all the information I need. Let me generate your challenge specification.",
      next_node := "spec_generation" }

/-- `_generate_final_spec`: state unchanged, fixed reply, route to spec
generation. -/
def generateFinalSpec (state : ConversationState) : NodeResult :=
  { conversation_state := state,
    response := "Let me compile your complete challenge specification now.",
    next_node := "spec_generation" }

/-- `_handle_field_questions`: `oracleQuestion` is the question-asking
oracle's reply, `parsedReply` the decoded answer-processing oracle reply. -/
def handleFieldQuestions (state : ConversationState)
    (user_input oracleQuestion : String) (parsedReply : Option JsonVal) :
    Except String NodeResult :=
  match state.current_field with
  | none => .ok (generateFinalSpec state)
  | some cf =>
      if cf = "" then .ok (generateFinalSpec state)
      else
        match state.schema with
        | none => .error "AttributeError: NoneType has no attribute fields"
        | some sch =>
            match getFieldDefinition sch cf with
            | none => .ok (moveToNextField state)
            | some _ =>
                if ¬ user_input = "" ∧ isQuestionResponse user_input = false then
                  processFieldAnswer sch state cf user_input parsedReply
                else
                  .ok { conversation_state := state,
                        response := oracleQuestion,
                        next_node := "field_questions" }

/-- `SchemaNode.__call__`: load the schema when none is present, otherwise
handle field questions. -/
def schemaNodeCall (schemas : List (String × ChallengeSchema))
    (state : ConversationState) (user_input oracleQuestion : String)
    (parsedReply : Option JsonVal) : Except String NodeResult :=
  match state.schema with
  | none => .ok (loadSchema schemas state)
  | some _ => handleFieldQuestions state user_input oracleQuestion parsedReply

/-- Modelled from the spec: the ConversationOrchestrator's dispatch for the
terminal phases SPEC_GENERATION/DONE (the orchestrator wiring is not under
`src/`): produce the final specification as a pure function over
`user_responses`, leave the state untouched, append nothing, and make no
oracle call (§4.1). The oracle reply is a parameter only to state that the
result cannot depend on it. -/
def handleTurnDone (state : ConversationState) (_user_input : String)
    (_oracleReply : String) : ConversationState × JsonVal :=
  (state, .obj state.user_responses)

/-- The next-field rule as the specification words it: iterate the schema's
required fields in declared order and return the first not in
`completed_fields`; if none remain, iterate all schema fields in declared
order and return the first not in `completed_fields`; if none remain, no
next field. -/
def nextFieldSpec (schema : ChallengeSchema) (completed : List String) :
    Option String :=
  match ((schema.fields.filter (fun kv => kv.2.required)).map Prod.fst).find?
      (fun f => decide (f ∉ completed)) with
  | some f => some f
  | none =>
      (schema.fields.map Prod.fst).find? (fun f => decide (f ∉ completed))

/-- The first space-delimited word of a character list. -/
def firstWord (l : List Char) : List Char :=
  l.takeWhile (fun c => ¬ c = ' ')

/-- The question test as the claim words it: the input is empty, contains a
question mark, or has an interrogative lead word. -/
def claimQuestionTest (input : String) : Bool :=
  let tl := lowerData input
  input = "" || containsSub "?".data tl ||
    ["what", "how", "when", "where", "why", "which"].any
      (fun w => firstWord tl = w.data) ||
    ["can you ", "could you "].any (fun p => p.data.isPrefixOf tl)

/-- The relation the code actually maintains between `user_responses` and
`completed_fields`: every stored key is either `confirmed_scope` or a
completed field, and every completed field has a stored response. -/
def keyInvariantPair (ur : List (String × JsonVal)) (cf : List String) : Bool :=
  (ur.map Prod.fst).all (fun k => decide (k = "confirmed_scope" ∨ k ∈ cf)) &&
    cf.all (fun k => (alGet ur k).isSome)

def keyInvariantB (st : ConversationState) : Bool :=
  keyInvariantPair st.user_responses st.completed_fields

/-- A fresh empty conversation state (what the session boundary supplies for
an unknown thread). -/
def freshState : ConversationState := {}

/-- A mid-collection state: Topcoder Development schema loaded, no field
answered yet, `title` current. -/
def sampleFieldState : ConversationState :=
  { scope_confirmed := true,
    platform := some .topcoder,
    challenge_type := some .development,
    schema := some topcoderDevelopmentSchema,
    required_fields := getRequiredFields topcoderDevelopmentSchema,
    current_field := some "title",
    user_responses := [("confirmed_scope", .str "a task management app")] }

/-- `sampleFieldState` with a current field that has no schema definition. -/
def badFieldState : ConversationState :=
  { sampleFieldState with current_field := some "bogus" }

theorem alGet_isSome_iff_mem {α : Type} (m : List (String × α)) (k : String) :
    (alGet m k).isSome = true ↔ k ∈ m.map Prod.fst := by
  induction m with
  | nil => simp [alGet]
  | cons hd t ih =>
      obtain ⟨k2, v⟩ := hd
      by_cases h : k2 = k
      · subst h; simp [alGet]
      · have h2 : ¬ k = k2 := fun hh => h hh.symm
        simp [alGet, h, h2, ih]

theorem mem_map_fst_alSet {α : Type} (m : List (String × α)) (k k2 : String)
    (v : α) (h : k2 ∈ (alSet m k v).map Prod.fst) :
    k2 = k ∨ k2 ∈ m.map Prod.fst := by
  by_cases hk : k2 = k
  · exact Or.inl hk
  · right
    rw [← alGet_isSome_iff_mem] at h ⊢
    rw [alGet_alSet, if_neg hk] at h
    exact h

theorem confirmedReasoning_ne_empty (d : String) :
    ¬ ("User confirmed scope: " ++ d) = "" := by
  intro h
  have h1 := congrArg String.length h
  rw [String.length_append] at h1
  have h2 : ("User confirmed scope: " : String).length = 22 := rfl
  have h3 : ("" : String).length = 0 := rfl
  omega

theorem getNextField_eq_spec (state : ConversationState)
    (sch : ChallengeSchema) (hsch : state.schema = some sch)
    (hreq : state.required_fields = getRequiredFields sch) :
    getNextField state = nextFieldSpec sch state.completed_fields := by
  unfold getNextField nextFieldSpec
  rw [hsch, hreq]
  rfl

theorem getNextField_mem (state : ConversationState) (sch : ChallengeSchema)
    (f : String) (hsch : state.schema = some sch)
    (hreq : state.required_fields = getRequiredFields sch)
    (h : getNextField state = some f) : f ∈ sch.fields.map Prod.fst := by
  unfold getNextField at h
  rw [hsch, hreq] at h
  cases hfind : (getRequiredFields sch).find?
      (fun f => decide (f ∉ state.completed_fields)) with
  | some g =>
      rw [hfind] at h
      cases h
      have hg := List.mem_of_find?_eq_some hfind
      unfold getRequiredFields at hg
      rcases List.mem_map.mp hg with ⟨kv, hkv, hkveq⟩
      exact List.mem_map.mpr ⟨kv, List.mem_of_mem_filter hkv, hkveq⟩
  | none =>
      rw [hfind] at h
      exact List.mem_of_find?_eq_some h

/-- For the no-template recovery scenario: platform/challenge type chosen
with no matching schema in the catalog. -/
def heroxDesignState : ConversationState :=
  { scope_confirmed := true, platform := some .herox,
    challenge_type := some .design }

theorem nextFieldSpec_not_completed (sch : ChallengeSchema)
    (completed : List String) (f : String)
    (h : nextFieldSpec sch completed = some f) : f ∉ completed := by
  unfold nextFieldSpec at h
  split at h
  next g hfind =>
      cases h
      have hp := List.find?_some hfind
      exact of_decide_eq_true hp
  next hfind =>
      have hp := List.find?_some h
      exact of_decide_eq_true hp

theorem nextFieldSpec_required_first (sch : ChallengeSchema)
    (completed : List String) (f : String)
    (h : nextFieldSpec sch completed = some f)
    (hnr : f ∉ getRequiredFields sch) :
    ∀ r ∈ getRequiredFields sch, r ∈ completed := by
  intro r hr
  unfold nextFieldSpec at h
  split at h
  next g hfind =>
      cases h
      exact absurd (List.mem_of_find?_eq_some hfind) hnr
  next hfind =>
      have hnone := List.find?_eq_none.mp hfind r hr
      simpa using hnone

/-- C1: the next-field computation returns the first required field in
schema-declared order not in `completed_fields`; if all required fields are
completed, the first schema field in declared order not in
`completed_fields`; if none remain, no next field. It never returns a field
already in `completed_fields`, and required fields are exhausted strictly
before optional ones. -/
theorem next_field_follows_spec (state : ConversationState)
    (sch : ChallengeSchema) (hsch : state.schema = some sch)
    (hreq : state.required_fields = getRequiredFields sch) :
    getNextField state = nextFieldSpec sch state.completed_fields
    ∧ (∀ f, getNextField state = some f → f ∉ state.completed_fields)
    ∧ (∀ f, getNextField state = some f → f ∉ getRequiredFields sch →
        ∀ r ∈ getRequiredFields sch, r ∈ state.completed_fields) := by
  have heq := getNextField_eq_spec state sch hsch hreq
  refine ⟨heq, ?_, ?_⟩
  · intro f hf
    exact nextFieldSpec_not_completed sch state.completed_fields f (heq ▸ hf)
  · intro f hf hnr
    exact nextFieldSpec_required_first sch state.completed_fields f
      (heq ▸ hf) hnr

/-- Witness for C1 at a concrete mid-collection state. -/
theorem next_field_follows_spec_witness :
    getNextField sampleFieldState =
      nextFieldSpec topcoderDevelopmentSchema sampleFieldState.completed_fields
    ∧ getNextField sampleFieldState = some "title" :=
  ⟨(next_field_follows_spec sampleFieldState topcoderDevelopmentSchema
      rfl rfl).1, rfl⟩

/-- C2 counterexample: an oracle reply that decodes as a JSON list — hence
"not parseable as the fixed JSON record" — makes `_process_field_answer`
raise (`processed_answer["value"]` on a list is a `TypeError`), so the
claimed never-raises/0.6-fallback behaviour does not hold for it; the
fallback only triggers when `json.loads` itself fails. -/
theorem fallback_claim_counterexample :
    processFieldAnswer topcoderDevelopmentSchema sampleFieldState "title"
      "my answer" (some (.arr [])) = .error "TypeError: value is not a dict" :=
  rfl

/-- C2 (amended): when the oracle reply fails JSON decoding, processing the
field answer never raises: the raw user text is stored verbatim under the
current field, confidence 0.6 is recorded, the rationale is the literal
"Direct user input", the field is appended to `completed_fields`, and a
ReasoningTrace with that confidence is appended. -/
theorem fallback_on_parse_failure (sch : ChallengeSchema)
    (state : ConversationState) (f ans : String) (fd : FieldDefinition)
    (hf : getFieldDefinition sch f = some fd) :
    ∃ r, processFieldAnswer sch state f ans none = .ok r
      ∧ r.conversation_state.user_responses =
          alSet state.user_responses f (.str ans)
      ∧ alGet r.conversation_state.user_responses f = some (.str ans)
      ∧ r.conversation_state.completed_fields = state.completed_fields ++ [f]
      ∧ r.conversation_state.reasoning_traces = state.reasoning_traces ++
          [⟨f, "user_input: " ++ ans, .num (6/10), .str "Direct user input"⟩] := by
  unfold processFieldAnswer
  rw [hf]
  simp only [processAnswerWithLLM]
  have hgi : getItem (JsonVal.obj [("value", .str ans),
      ("confidence", .num (6/10)), ("reasoning", .str "Direct user input")])
      "value" = .ok (.str ans) := rfl
  rw [hgi]
  refine ⟨_, rfl, rfl, ?_, rfl, rfl⟩
  rw [alGet_alSet]
  simp

/-- Witness for the amended C2 theorem at a concrete state. -/
theorem fallback_on_parse_failure_witness :
    ∃ r, processFieldAnswer topcoderDevelopmentSchema sampleFieldState "title"
        "my answer" none = .ok r
      ∧ r.conversation_state.user_responses =
          alSet sampleFieldState.user_responses "title" (.str "my answer")
      ∧ alGet r.conversation_state.user_responses "title" =
          some (.str "my answer")
      ∧ r.conversation_state.completed_fields =
          sampleFieldState.completed_fields ++ ["title"]
      ∧ r.conversation_state.reasoning_traces =
          sampleFieldState.reasoning_traces ++
            [⟨"title", "user_input: " ++ "my answer", .num (6/10),
              .str "Direct user input"⟩] :=
  fallback_on_parse_failure topcoderDevelopmentSchema sampleFieldState "title"
    "my answer" ⟨true, "text", none⟩ rfl

/-- C3: in the scoping dialogue, when the confirmation-marker scan matches,
`scope_confirmed` is set, the captured description is stored under
`confirmed_scope`, a ReasoningTrace with confidence 0.9 is appended, and the
conversation advances to schema selection; when the scan does not match, the
phase remains SCOPING. -/
theorem scoping_confirmation_marker (reply : String)
    (state : ConversationState) (hsc : state.scope_confirmed = false) :
    (∀ desc, findScopeConfirmed reply = some desc →
      (handleScopingDialogue reply state).conversation_state.scope_confirmed
          = true
      ∧ alGet (handleScopingDialogue reply state).conversation_state.user_responses
          "confirmed_scope" = some (.str desc)
      ∧ (handleScopingDialogue reply state).conversation_state.reasoning_traces
          = state.reasoning_traces ++
            [⟨"scoping", "scoping_dialogue", .num (9/10),
              .str ("User confirmed scope: " ++ desc)⟩]
      ∧ (handleScopingDialogue reply state).next_node = "schema_selection")
    ∧ (findScopeConfirmed reply = none →
      (handleScopingDialogue reply state).next_node = "scoping"
      ∧ (handleScopingDialogue reply state).conversation_state.scope_confirmed
          = false
      ∧ (handleScopingDialogue reply state).response = reply) := by
  constructor
  · intro desc hm
    unfold handleScopingDialogue parseScopingResponse
    rw [hm]
    cases hstg : findStage reply <;>
      simp [hstg, if_neg (confirmedReasoning_ne_empty desc), alGet_alSet]
  · intro hm
    unfold handleScopingDialogue parseScopingResponse
    rw [hm]
    cases hstg : findStage reply <;> simp [hstg, hsc]

/-- Witness for C3: a confirming oracle reply on a fresh state. -/
theorem scoping_confirmation_marker_witness :
    (handleScopingDialogue "Great. SCOPE_CONFIRMED: a mobile app"
        freshState).conversation_state.scope_confirmed = true
    ∧ alGet (handleScopingDialogue "Great. SCOPE_CONFIRMED: a mobile app"
        freshState).conversation_state.user_responses "confirmed_scope" =
        some (.str "a mobile app")
    ∧ (handleScopingDialogue "Great. SCOPE_CONFIRMED: a mobile app"
        freshState).conversation_state.reasoning_traces =
        freshState.reasoning_traces ++
          [⟨"scoping", "scoping_dialogue", .num (9/10),
            .str ("User confirmed scope: " ++ "a mobile app")⟩]
    ∧ (handleScopingDialogue "Great. SCOPE_CONFIRMED: a mobile app"
        freshState).next_node = "schema_selection" :=
  (scoping_confirmation_marker "Great. SCOPE_CONFIRMED: a mobile app"
    freshState rfl).1 "a mobile app" rfl

/-- C4: if the oracle reply contains a parsable `RECOMMENDATION: <platform>
- <type>` line whose pieces are valid enumeration values, both are stored
and the phase advances to SCHEMA_LOADING; on parse failure or an invalid
enumeration value the state is returned unchanged, the phase remains
SCHEMA_SELECTION, and the raw oracle text is returned unchanged. -/
theorem schema_selection_parse (reply : String) (state : ConversationState) :
    (∀ w1 w2 p ct, findRecommendation reply = some (w1, w2) →
      Platform.fromString w1 = some p → ChallengeType.fromString w2 = some ct →
      handleSchemaSelection reply state =
        { conversation_state :=
            { state with platform := some p, challenge_type := some ct },
          response := reply, next_node := "schema_loading" })
    ∧ (findRecommendation reply = none →
        handleSchemaSelection reply state =
          { conversation_state := state, response := reply,
            next_node := "schema_selection" })
    ∧ (∀ w1 w2, findRecommendation reply = some (w1, w2) →
        Platform.fromString w1 = none ∨ ChallengeType.fromString w2 = none →
        handleSchemaSelection reply state =
          { conversation_state := state, response := reply,
            next_node := "schema_selection" }) := by
  refine ⟨?_, ?_, ?_⟩
  · intro w1 w2 p ct hr hp hc
    unfold handleSchemaSelection
    rw [hr]
    simp [hp, hc]
  · intro hr
    unfold handleSchemaSelection
    rw [hr]
  · intro w1 w2 hr hbad
    unfold handleSchemaSelection
    rw [hr]
    rcases hbad with h | h
    · cases hc : ChallengeType.fromString w2 <;> simp [h, hc]
    · cases hp : Platform.fromString w1 <;> simp [h, hp]

/-- Witness for C4: Scenario B — `RECOMMENDATION: Topcoder - Development`. -/
theorem schema_selection_parse_witness :
    handleSchemaSelection "RECOMMENDATION: Topcoder - Development" freshState =
      { conversation_state :=
          { freshState with platform := some .topcoder,
                            challenge_type := some .development },
        response := "RECOMMENDATION: Topcoder - Development",
        next_node := "schema_loading" } :=
  (schema_selection_parse "RECOMMENDATION: Topcoder - Development"
      freshState).1 "Topcoder" "Development" .topcoder .development
    rfl rfl rfl


/-- The intermediate state of `_load_schema` right after storing the schema
snapshot and the required-field list. -/
def loadedState (state : ConversationState) (sch : ChallengeSchema) :
    ConversationState :=
  { state with schema := some sch, required_fields := getRequiredFields sch }

theorem loadSchema_success (schemas : List (String × ChallengeSchema))
    (state : ConversationState) (p : Platform) (ct : ChallengeType)
    (sch : ChallengeSchema) (hp : state.platform = some p)
    (hct : state.challenge_type = some ct)
    (hcat : getSchema schemas p ct = some sch) :
    loadSchema schemas state =
      { conversation_state :=
          if pyTruthy (getNextField (loadedState state sch)) then
            { loadedState state sch with
                current_field := getNextField (loadedState state sch) }
          else loadedState state sch,
        response := createSchemaIntroMessage sch,
        next_node := "field_questions" } := by
  unfold loadSchema loadedState
  rw [hp, hct]
  simp [hcat]

/-- C5: `load_schema` never raises. With platform or challenge type unset
the state is unchanged and the phase forced back to SCOPING with an
explanatory reply; with an unknown pair the state is unchanged and the phase
forced back to SCOPING with the no-template explanation; otherwise the
schema snapshot and required-field list are stored, `current_field` is set
by the next-field algorithm, the reply states the total and required field
counts, and the phase advances to FIELD_QUESTIONS. -/
theorem load_schema_branches (schemas : List (String × ChallengeSchema))
    (state : ConversationState) :
    ((state.platform = none ∨ state.challenge_type = none) →
      loadSchema schemas state =
        { conversation_state := state,
          response := "I need to know the platform and challenge type first. Let me help you select those.",
          next_node := "scoping" })
    ∧ (∀ p ct, state.platform = some p → state.challenge_type = some ct →
        getSchema schemas p ct = none →
        loadSchema schemas state =
          { conversation_state := state,
            response := "I don\x27t have a schema for " ++ p.value ++ " " ++
              ct.value ++
              " challenges. Let me help you with a different combination.",
            next_node := "scoping" })
    ∧ (∀ p ct sch, state.platform = some p → state.challenge_type = some ct →
        getSchema schemas p ct = some sch →
        (loadSchema schemas state).next_node = "field_questions"
        ∧ (loadSchema schemas state).response = createSchemaIntroMessage sch
        ∧ (loadSchema schemas state).conversation_state.schema = some sch
        ∧ (loadSchema schemas state).conversation_state.required_fields =
            getRequiredFields sch
        ∧ (state.current_field = none → "" ∉ sch.fields.map Prod.fst →
            (loadSchema schemas state).conversation_state.current_field =
              nextFieldSpec sch state.completed_fields)) := by
  refine ⟨?_, ?_, ?_⟩
  · intro hun
    unfold loadSchema
    rcases hun with h | h
    · rw [h]
    · rw [h]
      cases hp : state.platform <;> rfl
  · intro p ct hp hct hcat
    unfold loadSchema
    rw [hp, hct]
    simp [hcat]
  · intro p ct sch hp hct hcat
    rw [loadSchema_success schemas state p ct sch hp hct hcat]
    have heq : getNextField (loadedState state sch) =
        nextFieldSpec sch state.completed_fields :=
      getNextField_eq_spec (loadedState state sch) sch rfl rfl
    refine ⟨rfl, rfl, ?_, ?_, ?_⟩
    · by_cases htr : pyTruthy (getNextField (loadedState state sch)) = true
      · rw [if_pos htr]
        rfl
      · rw [if_neg htr]
        rfl
    · by_cases htr : pyTruthy (getNextField (loadedState state sch)) = true
      · rw [if_pos htr]
        rfl
      · rw [if_neg htr]
        rfl
    · intro hcf hnoempty
      rw [← heq]
      cases hnf : getNextField (loadedState state sch) with
      | none => simp [pyTruthy, loadedState, hcf]
      | some f =>
          have hfmem := getNextField_mem (loadedState state sch) sch f rfl rfl hnf
          have hfne : ¬ f = "" := by
            intro hfe
            rw [hfe] at hfmem
            exact hnoempty hfmem
          simp [pyTruthy, hfne]

/-- Witness for C5: Scenario D — (HeroX, Design) has no schema in the
default catalog, so the phase is forced back to SCOPING with the no-template
reply and the state unchanged. -/
theorem load_schema_branches_witness :
    loadSchema defaultCatalog heroxDesignState =
      { conversation_state := heroxDesignState,
        response := "I don\x27t have a schema for HeroX Design challenges. Let me help you with a different combination.",
        next_node := "scoping" } :=
  (load_schema_branches defaultCatalog heroxDesignState).2.1 .herox .design
    rfl rfl rfl

/-- C6 counterexample: the input "somewhat flexible" is non-empty, has no
question mark and no interrogative lead word, yet the code routes it to the
question branch (the heuristic checks the indicator substrings anywhere:
"somewhat" contains "what"), leaving the state unchanged instead of
consuming it as an answer. -/
theorem question_heuristic_counterexample :
    handleFieldQuestions sampleFieldState "somewhat flexible"
        "What title would you like?" none =
      .ok { conversation_state := sampleFieldState,
            response := "What title would you like?",
            next_node := "field_questions" }
    ∧ claimQuestionTest "somewhat flexible" = false
    ∧ isQuestionResponse "somewhat flexible" = true :=
  ⟨rfl, rfl, rfl⟩

/-- C6 (amended): during field collection the input is treated as a question
about the current field — oracle question returned, field not consumed,
state unchanged — exactly when it is empty or the question heuristic fires,
i.e. the lowercased input contains one of the indicator substrings
('?', 'what', 'how', 'when', 'where', 'why', 'which', 'can you',
'could you') anywhere, not only as a lead word; any other input is consumed
as a substantive field answer. -/
theorem question_branch_exactly_on_heuristic (state : ConversationState)
    (sch : ChallengeSchema) (cf user_input oracleQuestion : String)
    (parsedReply : Option JsonVal) (fd : FieldDefinition)
    (hcf : state.current_field = some cf) (hne : ¬ cf = "")
    (hsch : state.schema = some sch)
    (hfd : getFieldDefinition sch cf = some fd) :
    ((user_input = "" ∨ isQuestionResponse user_input = true) →
      handleFieldQuestions state user_input oracleQuestion parsedReply =
        .ok { conversation_state := state, response := oracleQuestion,
              next_node := "field_questions" })
    ∧ ((¬ user_input = "" ∧ isQuestionResponse user_input = false) →
      handleFieldQuestions state user_input oracleQuestion parsedReply =
        processFieldAnswer sch state cf user_input parsedReply) := by
  constructor
  · intro hq
    unfold handleFieldQuestions
    rw [hcf]
    simp only [hsch, hfd]
    rw [if_neg hne]
    have hcond : ¬ (¬ user_input = "" ∧ isQuestionResponse user_input = false) := by
      rcases hq with h | h
      · intro hc; exact hc.1 h
      · intro hc; rw [h] at hc; exact absurd hc.2 (by simp)
    simp [hcond]
  · intro ha
    unfold handleFieldQuestions
    rw [hcf]
    simp only [hsch, hfd]
    rw [if_neg hne]
    simp [ha]

/-- Witness for the amended C6 theorem: a plain declarative answer is
consumed as a field answer. -/
theorem question_branch_exactly_on_heuristic_witness :
    handleFieldQuestions sampleFieldState "Task Manager Pro" "q" none =
      processFieldAnswer topcoderDevelopmentSchema sampleFieldState "title"
        "Task Manager Pro" none :=
  (question_branch_exactly_on_heuristic sampleFieldState
      topcoderDevelopmentSchema "title" "Task Manager Pro" "q" none
      ⟨true, "text", none⟩ rfl (by decide) rfl rfl).2
    ⟨by decide, rfl⟩

theorem keyInvariantPair_set_scope (ur : List (String × JsonVal))
    (cf : List String) (v : JsonVal) (h : keyInvariantPair ur cf = true) :
    keyInvariantPair (alSet ur "confirmed_scope" v) cf = true := by
  simp only [keyInvariantPair, Bool.and_eq_true, List.all_eq_true,
    decide_eq_true_eq] at h ⊢
  obtain ⟨h1, h2⟩ := h
  constructor
  · intro k hk
    rcases mem_map_fst_alSet _ _ _ _ hk with h3 | h3
    · exact Or.inl h3
    · exact h1 k h3
  · intro k hk
    rw [alGet_alSet]
    by_cases h4 : k = "confirmed_scope"
    · simp [h4]
    · rw [if_neg h4]
      exact h2 k hk

theorem keyInvariantPair_answer (ur : List (String × JsonVal))
    (cf : List String) (f : String) (v : JsonVal)
    (h : keyInvariantPair ur cf = true) :
    keyInvariantPair (alSet ur f v) (cf ++ [f]) = true := by
  simp only [keyInvariantPair, Bool.and_eq_true, List.all_eq_true,
    decide_eq_true_eq] at h ⊢
  obtain ⟨h1, h2⟩ := h
  constructor
  · intro k hk
    rcases mem_map_fst_alSet _ _ _ _ hk with h3 | h3
    · exact Or.inr (List.mem_append_right _ (by simp [h3]))
    · rcases h1 k h3 with h4 | h4
      · exact Or.inl h4
      · exact Or.inr (List.mem_append_left _ h4)
  · intro k hk
    rw [alGet_alSet]
    by_cases h4 : k = f
    · simp [h4]
    · rw [if_neg h4]
      rcases List.mem_append.mp hk with h5 | h5
      · exact h2 k h5
      · simp at h5
        exact absurd h5 h4

theorem keyInv_scoping (reply : String) (st : ConversationState)
    (h : keyInvariantB st = true) :
    keyInvariantB (handleScopingDialogue reply st).conversation_state = true := by
  rcases hpp : parseScopingResponse reply with ⟨scope, stage, reasn, conf⟩
  simp only [handleScopingDialogue, hpp, keyInvariantB] at h ⊢
  cases scope <;> cases stage <;> by_cases hr : reasn = "" <;>
    simp [hr] <;>
    first
      | exact h
      | exact keyInvariantPair_set_scope _ _ _ h

theorem keyInv_selection (reply : String) (st : ConversationState)
    (h : keyInvariantB st = true) :
    keyInvariantB (handleSchemaSelection reply st).conversation_state = true := by
  unfold handleSchemaSelection
  cases hr : findRecommendation reply with
  | none => exact h
  | some w =>
      obtain ⟨w1, w2⟩ := w
      simp only []
      cases hp : Platform.fromString w1 <;>
        cases hc : ChallengeType.fromString w2 <;> exact h

theorem keyInv_load (schemas : List (String × ChallengeSchema))
    (st : ConversationState) (h : keyInvariantB st = true) :
    keyInvariantB (loadSchema schemas st).conversation_state = true := by
  unfold loadSchema
  cases hp : st.platform with
  | none => exact h
  | some p =>
      cases hct : st.challenge_type with
      | none => exact h
      | some ct =>
          simp only []
          cases hcat : getSchema schemas p ct with
          | none => exact h
          | some sch =>
              simp only []
              split <;> exact h

theorem keyInv_processFieldAnswer (sch : ChallengeSchema)
    (st : ConversationState) (f ans : String) (pr : Option JsonVal)
    (r : NodeResult) (hr : processFieldAnswer sch st f ans pr = .ok r)
    (h : keyInvariantB st = true) :
    keyInvariantB r.conversation_state = true := by
  unfold processFieldAnswer at hr
  cases hfd : getFieldDefinition sch f with
  | none => rw [hfd] at hr; cases hr
  | some fd =>
      rw [hfd] at hr
      simp only [] at hr
      cases hgi : getItem (processAnswerWithLLM pr ans) "value" with
      | error e => rw [hgi] at hr; cases hr
      | ok v =>
          rw [hgi] at hr
          simp only [] at hr
          cases hr
          exact keyInvariantPair_answer _ _ f v h

theorem keyInv_fieldQuestions (st : ConversationState) (ui oq : String)
    (pr : Option JsonVal) (r : NodeResult)
    (hr : handleFieldQuestions st ui oq pr = .ok r)
    (h : keyInvariantB st = true) :
    keyInvariantB r.conversation_state = true := by
  unfold handleFieldQuestions at hr
  cases hcf : st.current_field with
  | none => rw [hcf] at hr; cases hr; exact h
  | some cf =>
      rw [hcf] at hr
      simp only [] at hr
      by_cases hemp : cf = ""
      · rw [if_pos hemp] at hr; cases hr; exact h
      · rw [if_neg hemp] at hr
        cases hsch : st.schema with
        | none => rw [hsch] at hr; cases hr
        | some sch =>
            rw [hsch] at hr
            simp only [] at hr
            cases hfd : getFieldDefinition sch cf with
            | none =>
                rw [hfd] at hr
                cases hr
                unfold moveToNextField
                by_cases htr : pyTruthy (getNextField st) = true
                · rw [if_pos htr]; exact h
                · rw [if_neg htr]; exact h
            | some fd =>
                rw [hfd] at hr
                simp only [] at hr
                by_cases hans : ¬ ui = "" ∧ isQuestionResponse ui = false
                · rw [if_pos hans] at hr
                  exact keyInv_processFieldAnswer sch st cf ui pr r hr h
                · rw [if_neg hans] at hr
                  cases hr
                  exact h

/-- C7 counterexample: on a fresh state, a confirming scoping turn stores
`confirmed_scope` in `user_responses` while `completed_fields` stays empty,
so the key set of `user_responses` does not equal the set of keys in
`completed_fields`. -/
theorem responses_keys_counterexample :
    (alGet (handleScopingDialogue "SCOPE_CONFIRMED: build an app"
        freshState).conversation_state.user_responses
      "confirmed_scope").isSome = true
    ∧ "confirmed_scope" ∉ (handleScopingDialogue "SCOPE_CONFIRMED: build an app"
        freshState).conversation_state.completed_fields :=
  ⟨rfl, by decide⟩

/-- C7 (amended): the relation the code maintains is not key-set equality
but: every key of `user_responses` is either `confirmed_scope` or a member
of `completed_fields`, and every member of `completed_fields` has an entry
in `user_responses`; every node handler preserves this invariant. -/
theorem responses_keys_invariant :
    (∀ reply st, keyInvariantB st = true →
      keyInvariantB (scopingNodeCall reply st).conversation_state = true)
    ∧ (∀ schemas st ui oq pr r, keyInvariantB st = true →
        schemaNodeCall schemas st ui oq pr = .ok r →
        keyInvariantB r.conversation_state = true) := by
  constructor
  · intro reply st h
    unfold scopingNodeCall
    by_cases hsc : st.scope_confirmed = true
    · rw [if_pos hsc]
      exact keyInv_selection reply st h
    · rw [if_neg hsc]
      exact keyInv_scoping reply st h
  · intro schemas st ui oq pr r h hr
    unfold schemaNodeCall at hr
    cases hsch : st.schema with
    | none =>
        rw [hsch] at hr
        cases hr
        exact keyInv_load schemas st h
    | some sch =>
        rw [hsch] at hr
        exact keyInv_fieldQuestions st ui oq pr r hr h

/-- Witness for the amended C7 theorem: the invariant survives a confirming
scoping turn on a fresh state. -/
theorem responses_keys_invariant_witness :
    keyInvariantB (scopingNodeCall "SCOPE_CONFIRMED: build an app"
      freshState).conversation_state = true :=
  responses_keys_invariant.1 "SCOPE_CONFIRMED: build an app" freshState rfl

/-- C8: after the conversation reaches its terminal state every further call
is idempotent — the state is unchanged, the same final specification (a pure
function of `user_responses`) is returned, no ReasoningTrace is appended,
and the result does not depend on the oracle; the in-repository
`_generate_final_spec` step likewise returns the state unchanged with a
fixed reply. -/
theorem done_idempotent (state : ConversationState) (u1 u2 o1 o2 : String) :
    (handleTurnDone state u1 o1).1 = state
    ∧ handleTurnDone (handleTurnDone state u1 o1).1 u2 o2 =
        handleTurnDone state u1 o1
    ∧ (handleTurnDone state u1 o1).1.reasoning_traces = state.reasoning_traces
    ∧ handleTurnDone state u1 o1 = handleTurnDone state u1 o2
    ∧ (handleTurnDone state u1 o1).2 = .obj state.user_responses
    ∧ (generateFinalSpec state).conversation_state = state
    ∧ (generateFinalSpec state).response =
        "Let me compile your complete challenge specification now." :=
  ⟨rfl, rfl, rfl, rfl, rfl, rfl, rfl⟩

theorem traces_scoping (reply : String) (st : ConversationState) :
    st.reasoning_traces <+:
      (handleScopingDialogue reply st).conversation_state.reasoning_traces := by
  rcases hpp : parseScopingResponse reply with ⟨scope, stage, reasn, conf⟩
  simp only [handleScopingDialogue, hpp]
  cases scope <;> cases stage <;> by_cases hr : reasn = "" <;> simp [hr]

theorem traces_selection (reply : String) (st : ConversationState) :
    st.reasoning_traces <+:
      (handleSchemaSelection reply st).conversation_state.reasoning_traces := by
  unfold handleSchemaSelection
  cases hr : findRecommendation reply with
  | none => exact List.prefix_refl _
  | some w =>
      obtain ⟨w1, w2⟩ := w
      simp only []
      cases hp : Platform.fromString w1 <;>
        cases hc : ChallengeType.fromString w2 <;> exact List.prefix_refl _

theorem traces_load (schemas : List (String × ChallengeSchema))
    (st : ConversationState) :
    st.reasoning_traces <+:
      (loadSchema schemas st).conversation_state.reasoning_traces := by
  unfold loadSchema
  cases hp : st.platform with
  | none => exact List.prefix_refl _
  | some p =>
      cases hct : st.challenge_type with
      | none => exact List.prefix_refl _
      | some ct =>
          simp only []
          cases hcat : getSchema schemas p ct with
          | none => exact List.prefix_refl _
          | some sch =>
              simp only []
              split <;> exact List.prefix_refl _

theorem traces_processFieldAnswer (sch : ChallengeSchema)
    (st : ConversationState) (f ans : String) (pr : Option JsonVal)
    (r : NodeResult) (hr : processFieldAnswer sch st f ans pr = .ok r) :
    st.reasoning_traces <+: r.conversation_state.reasoning_traces := by
  unfold processFieldAnswer at hr
  cases hfd : getFieldDefinition sch f with
  | none => rw [hfd] at hr; cases hr
  | some fd =>
      rw [hfd] at hr
      simp only [] at hr
      cases hgi : getItem (processAnswerWithLLM pr ans) "value" with
      | error e => rw [hgi] at hr; cases hr
      | ok v =>
          rw [hgi] at hr
          simp only [] at hr
          cases hr
          exact List.prefix_append _ _

theorem traces_fieldQuestions (st : ConversationState) (ui oq : String)
    (pr : Option JsonVal) (r : NodeResult)
    (hr : handleFieldQuestions st ui oq pr = .ok r) :
    st.reasoning_traces <+: r.conversation_state.reasoning_traces := by
  unfold handleFieldQuestions at hr
  cases hcf : st.current_field with
  | none => rw [hcf] at hr; cases hr; exact List.prefix_refl _
  | some cf =>
      rw [hcf] at hr
      simp only [] at hr
      by_cases hemp : cf = ""
      · rw [if_pos hemp] at hr; cases hr; exact List.prefix_refl _
      · rw [if_neg hemp] at hr
        cases hsch : st.schema with
        | none => rw [hsch] at hr; cases hr
        | some sch =>
            rw [hsch] at hr
            simp only [] at hr
            cases hfd : getFieldDefinition sch cf with
            | none =>
                rw [hfd] at hr
                cases hr
                unfold moveToNextField
                by_cases htr : pyTruthy (getNextField st) = true
                · rw [if_pos htr]
                · rw [if_neg htr]
            | some fd =>
                rw [hfd] at hr
                simp only [] at hr
                by_cases hans : ¬ ui = "" ∧ isQuestionResponse ui = false
                · rw [if_pos hans] at hr
                  exact traces_processFieldAnswer sch st cf ui pr r hr
                · rw [if_neg hans] at hr
                  cases hr
                  exact List.prefix_refl _

/-- C9: `reasoning_traces` is append-only — for every turn handled by any
component in any phase, the prior trace sequence is a prefix of the
resulting one; the terminal dispatch leaves it exactly unchanged. -/
theorem traces_append_only :
    (∀ reply st, st.reasoning_traces <+:
        (scopingNodeCall reply st).conversation_state.reasoning_traces)
    ∧ (∀ schemas st ui oq pr r, schemaNodeCall schemas st ui oq pr = .ok r →
        st.reasoning_traces <+: r.conversation_state.reasoning_traces)
    ∧ (∀ st ui o, (handleTurnDone st ui o).1.reasoning_traces =
        st.reasoning_traces) := by
  refine ⟨?_, ?_, fun _ _ _ => rfl⟩
  · intro reply st
    unfold scopingNodeCall
    by_cases hsc : st.scope_confirmed = true
    · rw [if_pos hsc]
      exact traces_selection reply st
    · rw [if_neg hsc]
      exact traces_scoping reply st
  · intro schemas st ui oq pr r hr
    unfold schemaNodeCall at hr
    cases hsch : st.schema with
    | none =>
        rw [hsch] at hr
        cases hr
        exact traces_load schemas st
    | some sch =>
        rw [hsch] at hr
        exact traces_fieldQuestions st ui oq pr r hr

/-- Witness for C9 at a concrete field-questions turn. -/
theorem traces_append_only_witness :
    sampleFieldState.reasoning_traces <+:
      ({ conversation_state := sampleFieldState, response := "Q",
         next_node := "field_questions" } :
          NodeResult).conversation_state.reasoning_traces :=
  traces_append_only.2.1 defaultCatalog sampleFieldState "" "Q" none
    ⟨sampleFieldState, "Q", "field_questions"⟩ rfl

/-- C10: when `current_field` names a key with no definition in the loaded
schema, the field-questions step does not raise and records no value and no
ReasoningTrace for that key: it silently recomputes `current_field` via the
next-field algorithm and either continues with the next field or, if none
remains, moves to spec generation. -/
theorem unknown_current_field_skipped (state : ConversationState)
    (sch : ChallengeSchema) (cf ui oq : String) (pr : Option JsonVal)
    (hsch : state.schema = some sch) (hcf : state.current_field = some cf)
    (hne : ¬ cf = "") (hfd : getFieldDefinition sch cf = none) :
    handleFieldQuestions state ui oq pr = .ok (moveToNextField state)
    ∧ (moveToNextField state).conversation_state.user_responses =
        state.user_responses
    ∧ (moveToNextField state).conversation_state.reasoning_traces =
        state.reasoning_traces
    ∧ (moveToNextField state).conversation_state.current_field =
        getNextField state
    ∧ (pyTruthy (getNextField state) = true →
        (moveToNextField state).next_node = "field_questions")
    ∧ (getNextField state = none →
        (moveToNextField state).next_node = "spec_generation") := by
  refine ⟨?_, ?_, ?_, ?_, ?_, ?_⟩
  · unfold handleFieldQuestions
    rw [hcf]
    simp only [hsch, hfd]
    rw [if_neg hne]
  · simp only [moveToNextField]
    split <;> rfl
  · simp only [moveToNextField]
    split <;> rfl
  · simp only [moveToNextField]
    split <;> rfl
  · intro htr
    simp only [moveToNextField]
    rw [if_pos htr]
  · intro hnf
    have htr : ¬ pyTruthy (getNextField state) = true := by
      rw [hnf]
      simp [pyTruthy]
    simp only [moveToNextField]
    rw [if_neg htr]

/-- Witness for C10: `current_field = "bogus"` has no definition in the
Topcoder Development schema; the step recomputes `title` and continues. -/
theorem unknown_current_field_skipped_witness :
    handleFieldQuestions badFieldState "hi" "q" none =
      .ok (moveToNextField badFieldState)
    ∧ (moveToNextField badFieldState).conversation_state.user_responses =
        badFieldState.user_responses
    ∧ (moveToNextField badFieldState).conversation_state.reasoning_traces =
        badFieldState.reasoning_traces
    ∧ (moveToNextField badFieldState).conversation_state.current_field =
        getNextField badFieldState := by
  have h := unknown_current_field_skipped badFieldState
    topcoderDevelopmentSchema "bogus" "hi" "q" none rfl rfl (by decide) rfl
  exact ⟨h.1, h.2.1, h.2.2.1, h.2.2.2.1⟩
